import Mathlib

/-!
Verification of the save-config HTTP handler (src/server.py) of the
Midi-Key-Lights-Visualizer repository.

The handler `Handler.do_POST` is embedded shallowly as a pure function from a
request and a file state to an outcome.  The Python `json` module (an external
library used by the handler) is modelled from the spec: `json.loads` as a
recursive-descent parser over the character list of the body, and
`json.dump(config, f, indent=2)` as a pretty printer with 2-space indentation.
JSON numbers are modelled as integers (floating point is outside the scope of
the embedding); JSON strings are Lean strings, with the escaping behaviour of
the Python serializer for the characters it escapes in the ASCII range.
-/

namespace ConfigServer

mutual
/-- JSON values, as produced by `json.loads` and consumed by `json.dump`
(modelled from the spec; numbers restricted to integers). The three types are
mutually inductive so that arrays and objects carry their elements
structurally. -/
inductive Json where
  | null : Json
  | bool (b : Bool) : Json
  | num (n : Int) : Json
  | str (s : String) : Json
  | arr (elems : JsonArr) : Json
  | obj (members : JsonObj) : Json
inductive JsonArr where
  | nil : JsonArr
  | cons (hd : Json) (tl : JsonArr) : JsonArr
inductive JsonObj where
  | nil : JsonObj
  | cons (key : String) (val : Json) (tl : JsonObj) : JsonObj
end

/-- The character for a single decimal digit. -/
def digitChar : Nat → Char
  | 0 => '0' | 1 => '1' | 2 => '2' | 3 => '3' | 4 => '4'
  | 5 => '5' | 6 => '6' | 7 => '7' | 8 => '8' | _ => '9'

/-- Fuel-driven digit expansion used to define `natChars` by structural
recursion. -/
def natCharsAux : Nat → Nat → List Char
  | 0, _ => []
  | fuel + 1, n =>
    if n < 10 then [digitChar n]
    else natCharsAux fuel (n / 10) ++ [digitChar (n % 10)]

/-- Decimal digit characters of a natural number, most significant first
(the digits of Python's `repr` of a nonnegative int). -/
def natChars (n : Nat) : List Char := natCharsAux (n + 1) n

/-- Character list of Python's `repr` of an int. -/
def intChars (n : Int) : List Char :=
  if n < 0 then '-' :: natChars n.natAbs else natChars n.natAbs

/-- Numeric value of a list of decimal digit characters, with accumulator. -/
def digitsVal (acc : Nat) : List Char → Nat
  | [] => acc
  | c :: cs => digitsVal (10 * acc + (c.toNat - 48)) cs

/-- Lower-case hexadecimal digit character. -/
def hexDigit : Nat → Char
  | 0 => '0' | 1 => '1' | 2 => '2' | 3 => '3' | 4 => '4'
  | 5 => '5' | 6 => '6' | 7 => '7' | 8 => '8' | 9 => '9'
  | 10 => 'a' | 11 => 'b' | 12 => 'c' | 13 => 'd' | 14 => 'e' | _ => 'f'

/-- Value of a hexadecimal digit character, upper or lower case. -/
def hexVal? (c : Char) : Option Nat :=
  if c.isDigit then some (c.toNat - 48)
  else if 'a' ≤ c ∧ c ≤ 'f' then some (c.toNat - 87)
  else if 'A' ≤ c ∧ c ≤ 'F' then some (c.toNat - 55)
  else none

/-- Escape of one character inside a JSON string literal, as written by the
Python serializer (modelled from the spec): quote, backslash and the named
control escapes as two-character escapes, any other control character as a
4-hex-digit escape, everything else verbatim. -/
def escapeChar (c : Char) : List Char :=
  if c = '"' then ['\\', '"']
  else if c = '\\' then ['\\', '\\']
  else if c = '\n' then ['\\', 'n']
  else if c = '\t' then ['\\', 't']
  else if c = '\r' then ['\\', 'r']
  else if c = '\x08' then ['\\', 'b']
  else if c = '\x0c' then ['\\', 'f']
  else if c.toNat < 32 then
    ['\\', 'u', '0', '0', hexDigit (c.toNat / 16), hexDigit (c.toNat % 16)]
  else [c]

/-- Body of the JSON string literal for a list of characters (without the
surrounding quotes). -/
def strBody (cs : List Char) : List Char := (cs.map escapeChar).flatten

/-- Full JSON string literal for a string, quotes included. -/
def quoteChars (s : String) : List Char := '"' :: (strBody s.data ++ ['"'])

/-- Indentation: `n` spaces. -/
def pad (n : Nat) : List Char := List.replicate n ' '

mutual
/-- Serialization of a JSON value with 2-space indentation at nesting level
`ind`, as produced by `json.dump(config, f, indent=2)` (modelled from the
spec). -/
def printVal (ind : Nat) : Json → List Char
  | .null => ['n', 'u', 'l', 'l']
  | .bool b => if b then ['t', 'r', 'u', 'e'] else ['f', 'a', 'l', 's', 'e']
  | .num n => intChars n
  | .str s => quoteChars s
  | .arr .nil => ['[', ']']
  | .arr (.cons h t) =>
      '[' :: '\n' :: (pad (ind + 2) ++ (printVal (ind + 2) h ++
        (printArrTail (ind + 2) t ++ ('\n' :: (pad ind ++ [']'])))))
  | .obj .nil => ['{', '}']
  | .obj (.cons k v t) =>
      '{' :: '\n' :: (pad (ind + 2) ++ (quoteChars k ++ (':' :: ' ' ::
        (printVal (ind + 2) v ++
          (printObjTail (ind + 2) t ++ ('\n' :: (pad ind ++ ['}'])))))))
def printArrTail (ind : Nat) : JsonArr → List Char
  | .nil => []
  | .cons h t =>
      ',' :: '\n' :: (pad ind ++ (printVal ind h ++ printArrTail ind t))
def printObjTail (ind : Nat) : JsonObj → List Char
  | .nil => []
  | .cons k v t =>
      ',' :: '\n' :: (pad ind ++ (quoteChars k ++ (':' :: ' ' ::
        (printVal ind v ++ printObjTail ind t))))
end

/-- The serialized text written to the config file on a successful save. -/
def dumps (v : Json) : String := ⟨printVal 0 v⟩

/-- JSON whitespace, as skipped by the parser. -/
def isJsonWs (c : Char) : Bool := c = ' ' || c = '\n' || c = '\t' || c = '\r'

/-- Drop leading JSON whitespace. -/
def skipWs (cs : List Char) : List Char := cs.dropWhile isJsonWs

/-- Longest prefix of decimal digits and the remaining input. -/
def spanDigits (cs : List Char) : List Char × List Char :=
  (cs.takeWhile Char.isDigit, cs.dropWhile Char.isDigit)

/-- A character built from a code point when it is a valid scalar value. -/
def charOfNat? (n : Nat) : Option Char :=
  if n.isValidChar then some (Char.ofNat n) else none

mutual
/-- Parser for the body of a JSON string literal, after the opening quote;
the first argument holds the characters read so far, in reverse. Rejects raw
control characters, as the Python parser does in strict mode. -/
def parseStrAux : List Char → List Char → Option (String × List Char)
  | _, [] => none
  | acc, c :: cs =>
    if c = '"' then some (⟨acc.reverse⟩, cs)
    else if c = '\\' then parseEsc acc cs
    else if c.toNat < 32 then none
    else parseStrAux (c :: acc) cs
termination_by structural _x y => y
/-- Handling of the character after a backslash inside a string literal. -/
def parseEsc : List Char → List Char → Option (String × List Char)
  | _, [] => none
  | acc, e :: cs =>
    if e = '"' then parseStrAux ('"' :: acc) cs
    else if e = '\\' then parseStrAux ('\\' :: acc) cs
    else if e = '/' then parseStrAux ('/' :: acc) cs
    else if e = 'n' then parseStrAux ('\n' :: acc) cs
    else if e = 't' then parseStrAux ('\t' :: acc) cs
    else if e = 'r' then parseStrAux ('\r' :: acc) cs
    else if e = 'b' then parseStrAux ('\x08' :: acc) cs
    else if e = 'f' then parseStrAux ('\x0c' :: acc) cs
    else if e = 'u' then parseU acc cs
    else none
termination_by structural _x y => y
/-- Handling of a 4-hex-digit escape body. -/
def parseU : List Char → List Char → Option (String × List Char)
  | acc, h1 :: h2 :: h3 :: h4 :: cs =>
    (match hexVal? h1, hexVal? h2, hexVal? h3, hexVal? h4 with
     | some a, some b, some c2, some d =>
       (match charOfNat? (4096 * a + 256 * b + 16 * c2 + d) with
        | some ch => parseStrAux (ch :: acc) cs
        | none => none)
     | _, _, _, _ => none)
  | _, _ => none
termination_by structural _x y => y
end

/-- Parser for a JSON string literal after its opening quote. -/
def parseStr (cs : List Char) : Option (String × List Char) := parseStrAux [] cs

mutual
/-- Recursive-descent JSON parser (modelled from the spec: the grammar accepted
by `json.loads`, restricted to integer numbers). The fuel argument bounds the
recursion depth; each entry into one of the mutually recursive parsers consumes
one unit. -/
def parseVal : Nat → List Char → Option (Json × List Char)
  | 0, _ => none
  | fuel + 1, cs0 =>
    match skipWs cs0 with
    | [] => none
    | c :: cs =>
      if c = 'n' then
        match cs with
        | 'u' :: 'l' :: 'l' :: rest => some (.null, rest)
        | _ => none
      else if c = 't' then
        match cs with
        | 'r' :: 'u' :: 'e' :: rest => some (.bool true, rest)
        | _ => none
      else if c = 'f' then
        match cs with
        | 'a' :: 'l' :: 's' :: 'e' :: rest => some (.bool false, rest)
        | _ => none
      else if c = '"' then
        match parseStr cs with
        | some (s, rest) => some (.str s, rest)
        | none => none
      else if c = '[' then
        if (skipWs cs).head? = some ']' then some (.arr .nil, (skipWs cs).tail)
        else
          match parseVal fuel cs with
          | some (v, rest) =>
            match parseArrRest fuel rest with
            | some (t, rest') => some (.arr (.cons v t), rest')
            | none => none
          | none => none
      else if c = '{' then
        if (skipWs cs).head? = some '}' then some (.obj .nil, (skipWs cs).tail)
        else
          match parseMember fuel cs with
          | some (k, v, rest) =>
            match parseObjRest fuel rest with
            | some (t, rest') => some (.obj (.cons k v t), rest')
            | none => none
          | none => none
      else if c = '-' then
        match spanDigits cs with
        | ([], _) => none
        | (ds, rest) => some (.num (-(digitsVal 0 ds : Int)), rest)
      else if c.isDigit then
        some (.num ((digitsVal 0 ((c :: cs).takeWhile Char.isDigit) : Int)),
          (c :: cs).dropWhile Char.isDigit)
      else none
def parseArrRest : Nat → List Char → Option (JsonArr × List Char)
  | 0, _ => none
  | fuel + 1, cs =>
    match skipWs cs with
    | ']' :: rest => some (.nil, rest)
    | ',' :: rest =>
      match parseVal fuel rest with
      | some (v, rest') =>
        match parseArrRest fuel rest' with
        | some (t, rest'') => some (.cons v t, rest'')
        | none => none
      | none => none
    | _ => none
def parseMember : Nat → List Char → Option (String × Json × List Char)
  | 0, _ => none
  | fuel + 1, cs =>
    match skipWs cs with
    | '"' :: cs' =>
      match parseStr cs' with
      | some (k, cs'') =>
        match skipWs cs'' with
        | ':' :: cs3 =>
          match parseVal fuel cs3 with
          | some (v, cs4) => some (k, v, cs4)
          | none => none
        | _ => none
      | none => none
    | _ => none
def parseObjRest : Nat → List Char → Option (JsonObj × List Char)
  | 0, _ => none
  | fuel + 1, cs =>
    match skipWs cs with
    | '}' :: rest => some (.nil, rest)
    | ',' :: rest =>
      match parseMember fuel rest with
      | some (k, v, rest') =>
        match parseObjRest fuel rest' with
        | some (t, rest'') => some (.cons k v t, rest'')
        | none => none
      | none => none
    | _ => none
end

/-- The model of `json.loads`: parse a complete document, requiring that only
whitespace follows it. -/
def loads (s : String) : Option Json :=
  match parseVal (s.data.length + 1) s.data with
  | some (v, rest) => if skipWs rest = [] then some v else none
  | none => none

/-! ## The request handler (embedding of `Handler.do_POST`, src/server.py) -/

/-- An incoming HTTP request as seen by `do_POST`: the request path, the
header fields, and the request body (taken as an already UTF-8-decoded
string; the invalid-UTF-8 and mid-character truncation cases are modelled in
`readDecoded`). -/
structure Request where
  path : String
  headers : List (String × String)
  body : String
deriving DecidableEq

/-- An HTTP response as assembled by `send_response` / `send_header` /
`wfile.write`: status code, optional Content-Type header, body text. -/
structure HttpResponse where
  status : Nat
  contentType : Option String
  body : String
deriving DecidableEq

/-- The state of the config file `config.json`: `none` when the file does not
exist, otherwise its textual content. -/
abbrev FileState : Type := Option String

/-- Outcome of one `do_POST` invocation: either a reply was sent (with the
resulting config-file state), or an exception escaped the handler (raised
outside the `try` block on lines 11-12 of src/server.py), in which case no
HTTP response is produced by this code and the file is untouched. -/
inductive Outcome where
  | replied (resp : HttpResponse) (file : FileState) : Outcome
  | uncaught (exnMsg : String) (file : FileState) : Outcome
deriving DecidableEq

/-- The reply carried by an outcome, if one was sent. -/
def Outcome.respOf : Outcome → Option HttpResponse
  | .replied r _ => some r
  | .uncaught _ _ => none

/-- The config-file state after an outcome. -/
def Outcome.fileOf : Outcome → FileState
  | .replied _ f => f
  | .uncaught _ f => f

/-- Header lookup, `self.headers['Content-Length']`: `none` when the field is
absent (Python returns `None` rather than raising). -/
def getHeader : List (String × String) → String → Option String
  | [], _ => none
  | (k, v) :: rest, name => if k = name then some v else getHeader rest name

/-- Strip leading and trailing whitespace, as Python's `int()` does to its
string argument. -/
def pyStrip (cs : List Char) : List Char :=
  ((cs.dropWhile Char.isWhitespace).reverse.dropWhile Char.isWhitespace).reverse

/-- Numeric value of an all-digit, nonempty character list. -/
def digitsOnly? (ds : List Char) : Option Nat :=
  if ds = [] then none
  else if ds.all Char.isDigit then some (digitsVal 0 ds) else none

/-- Modelled from the spec: Python's `int()` conversion of a string — optional
surrounding whitespace, optional sign, decimal digits (digit-group
underscores are not modelled). -/
def parsePyInt (s : String) : Option Int :=
  match pyStrip s.data with
  | '-' :: ds => (digitsOnly? ds).map (fun n => -(n : Int))
  | '+' :: ds => (digitsOnly? ds).map (fun n => (n : Int))
  | ds => (digitsOnly? ds).map (fun n => (n : Int))

/-- Message of the `TypeError` raised by `int(None)` when the Content-Length
header is absent (text modelled from the spec's description of the failure). -/
def typeErrorMsg : String :=
  "int() argument must be a string, a bytes-like object or a real number, not NoneType"

/-- Message of the `ValueError` raised by `int()` on a non-numeric string. -/
def valueErrorMsg (s : String) : String :=
  "invalid literal for int() with base 10: " ++ s

/-- Line 11 of src/server.py, `int(self.headers['Content-Length'])`: raises
`TypeError` when the header is absent and `ValueError` when it is not an
integer literal; both are raised before the `try` block. -/
def pyInt : Option String → Except String Int
  | none => .error typeErrorMsg
  | some s =>
    match parsePyInt s with
    | some n => .ok n
    | none => .error (valueErrorMsg s)

/-- Number of UTF-8 bytes of one character. -/
def charBytes (c : Char) : Nat :=
  if c.toNat < 0x80 then 1
  else if c.toNat < 0x800 then 2
  else if c.toNat < 0x10000 then 3
  else 4

/-- Number of UTF-8 bytes of a character list. -/
def byteLen (cs : List Char) : Nat := (cs.map charBytes).sum

/-- The first `n` bytes of the UTF-8 encoding of a character list, as
characters; `none` when `n` falls inside the encoding of a character (in which
case the later `decode('utf-8')` raises). Reading past the end returns what is
available. -/
def takeBytes : List Char → Nat → Option (List Char)
  | _, 0 => some []
  | [], _ + 1 => some []
  | c :: cs, n + 1 =>
    if charBytes c ≤ n + 1 then
      (takeBytes cs (n + 1 - charBytes c)).map (c :: ·)
    else none

/-- Lines 12 and 15 of src/server.py: `self.rfile.read(content_length)`
followed by `.decode('utf-8')`. A negative count reads the whole stream; a
count that splits a character makes the decode raise (an error that, unlike
the `int()` call, happens inside the `try` block). -/
def readDecoded (body : String) (cl : Int) : Except String String :=
  if cl < 0 then .ok body
  else
    match takeBytes body.data cl.toNat with
    | some cs => .ok ⟨cs⟩
    | none => .error "invalid continuation byte in request body"

/-- Message of the `json.JSONDecodeError` raised on a body that is not valid
JSON (text modelled from the spec: only the fact that a textual description is
transmitted matters, not its exact wording). -/
def invalidJsonMsg : String := "Expecting value: request body is not valid JSON"

/-- Line 15 of src/server.py, `json.loads(...)` as a fallible operation. -/
def loadsE (s : String) : Except String Json :=
  match loads s with
  | some v => .ok v
  | none => .error invalidJsonMsg

/-- Body written on success, line 22: `b'\x7b"success": true\x7d'`. -/
def successBody : String := "\x7b\"success\": true\x7d"

/-- Body written on failure, line 27: `json.dumps(\x7b"error": str(e)\x7d)`
(compact form, default separators). -/
def errorBody (m : String) : String :=
  "\x7b\"error\": " ++ (⟨quoteChars m⟩ : String) ++ "\x7d"

/-- The success response of lines 19-22. -/
def ok200 : HttpResponse := ⟨200, some "application/json", successBody⟩

/-- The failure response of lines 24-27. -/
def err500 (m : String) : HttpResponse := ⟨500, some "application/json", errorBody m⟩

/-- The not-found response of lines 29-30: status 404, no body. -/
def notFound404 : HttpResponse := ⟨404, none, ""⟩

/-- Embedding of `Handler.do_POST` (src/server.py lines 9-30). `fsFail`
injects the filesystem fault model: when it is `some m`, the
`open('config.json', 'w')` of line 16 raises `OSError` with message `m`
(inside the `try`, so it is answered with a 500); when it is `none` the write
succeeds and replaces the file's content. -/
def doPOST (fsFail : Option String) (req : Request) (file : FileState) : Outcome :=
  if req.path = "/save-config" then
    match pyInt (getHeader req.headers "Content-Length") with
    | .error m => .uncaught m file
    | .ok cl =>
      match readDecoded req.body cl with
      | .error m => .replied (err500 m) file
      | .ok postData =>
        match loadsE postData with
        | .error m => .replied (err500 m) file
        | .ok config =>
          match fsFail with
          | some m => .replied (err500 m) file
          | none => .replied ok200 (some (dumps config))
  else .replied notFound404 file

/-- Result of the method dispatch performed around `do_POST` by the HTTP
machinery (modelled from Python's `http.server`, which is outside this
repository): `POST` reaches `Handler.do_POST`; `GET` and `HEAD` fall through
to `SimpleHTTPRequestHandler`'s static file serving, which the spec treats as
an external capability; any other method has no `do_<METHOD>` handler and is
answered `501 Unsupported method`. -/
inductive Dispatched where
  | post (o : Outcome) : Dispatched
  | staticServe : Dispatched
  | unsupported (status : Nat) : Dispatched
deriving DecidableEq

/-- Modelled from the spec: the method dispatch of
`BaseHTTPRequestHandler.handle_one_request` around the handler class of
src/server.py. -/
def dispatch (fsFail : Option String) (method : String) (req : Request)
    (file : FileState) : Dispatched :=
  if method = "POST" then .post (doPOST fsFail req file)
  else if method = "GET" ∨ method = "HEAD" then .staticServe
  else .unsupported 501

/-! ## Basic lemmas about the lexical helpers -/

/-- A list of JSON whitespace characters only. -/
def wsOnly (cs : List Char) : Bool := cs.all isJsonWs

/-- The head of the list, if any, is not a decimal digit. -/
def noDigitHead : List Char → Bool
  | [] => true
  | c :: _ => !c.isDigit

theorem skipWs_cons_of_neg {c : Char} (h : isJsonWs c = false) (cs : List Char) :
    skipWs (c :: cs) = c :: cs := by
  simp [skipWs, List.dropWhile_cons, h]

theorem skipWs_cons_of_pos {c : Char} (h : isJsonWs c = true) (cs : List Char) :
    skipWs (c :: cs) = skipWs cs := by
  simp [skipWs, List.dropWhile_cons, h]

theorem skipWs_wsOnly_append {w : List Char} (h : wsOnly w = true) (cs : List Char) :
    skipWs (w ++ cs) = skipWs cs := by
  induction w with
  | nil => simp
  | cons c w ih =>
    simp only [wsOnly, List.all_cons, Bool.and_eq_true] at h
    rw [List.cons_append, skipWs_cons_of_pos h.1]
    exact ih (by simp [wsOnly, h.2])

theorem wsOnly_pad (n : Nat) : wsOnly (pad n) = true := by
  simp only [wsOnly, pad, List.all_eq_true]
  intro c hc
  rw [List.eq_of_mem_replicate hc]
  decide

theorem wsOnly_nl_pad (n : Nat) : wsOnly ('\n' :: pad n) = true := by
  simp only [wsOnly, List.all_cons, Bool.and_eq_true]
  exact ⟨by decide, wsOnly_pad n⟩

theorem ws_not_digit {c : Char} (h : isJsonWs c = true) : c.isDigit = false := by
  simp only [isJsonWs, Bool.or_eq_true, decide_eq_true_eq] at h
  rcases h with ((h | h) | h) | h <;> subst h <;> decide

theorem noDigitHead_ws_append {w : List Char} (hw : wsOnly w = true) {b : Char}
    (hb : b.isDigit = false) (rest : List Char) :
    noDigitHead (w ++ b :: rest) = true := by
  cases w with
  | nil => simp [noDigitHead, hb]
  | cons c w =>
    simp only [wsOnly, List.all_cons, Bool.and_eq_true] at hw
    simp [noDigitHead, ws_not_digit hw.1]

theorem digitChar_isDigit (d : Nat) : (digitChar d).isDigit = true := by
  unfold digitChar
  split <;> decide

theorem digitChar_val {d : Nat} (h : d < 10) : (digitChar d).toNat - 48 = d := by
  interval_cases d <;> decide

theorem natCharsAux_extra (n : Nat) :
    ∀ fuel₁ fuel₂, n < fuel₁ → n < fuel₂ → natCharsAux fuel₁ n = natCharsAux fuel₂ n := by
  induction n using Nat.strong_induction_on with
  | _ n ih =>
    intro fuel₁ fuel₂ h₁ h₂
    cases fuel₁ with
    | zero => omega
    | succ f₁ =>
      cases fuel₂ with
      | zero => omega
      | succ f₂ =>
        simp only [natCharsAux]
        split
        · rfl
        · rw [ih (n / 10) (Nat.div_lt_self (by omega) (by omega)) f₁ f₂ (by omega) (by omega)]

theorem natChars_eq (n : Nat) :
    natChars n = if n < 10 then [digitChar n]
      else natChars (n / 10) ++ [digitChar (n % 10)] := by
  show natCharsAux (n + 1) n = _
  rw [natCharsAux]
  split
  · rfl
  · rw [natCharsAux_extra (n / 10) n (n / 10 + 1) (by omega) (by omega)]
    rfl

theorem natChars_all_digit (n : Nat) : ∀ c ∈ natChars n, c.isDigit = true := by
  induction n using Nat.strong_induction_on with
  | _ n ih =>
    rw [natChars_eq]
    split
    · intro c hc
      rw [List.eq_of_mem_singleton hc]
      exact digitChar_isDigit n
    · intro c hc
      rcases List.mem_append.mp hc with h | h
      · exact ih (n / 10) (Nat.div_lt_self (by omega) (by omega)) c h
      · rw [List.eq_of_mem_singleton h]
        exact digitChar_isDigit (n % 10)

theorem natChars_ne_nil (n : Nat) : natChars n ≠ [] := by
  rw [natChars_eq]
  split <;> simp

theorem digitsVal_nil (acc : Nat) : digitsVal acc [] = acc := rfl

theorem digitsVal_cons (acc : Nat) (c : Char) (cs : List Char) :
    digitsVal acc (c :: cs) = digitsVal (10 * acc + (c.toNat - 48)) cs := rfl

theorem digitsVal_append (acc : Nat) (xs ys : List Char) :
    digitsVal acc (xs ++ ys) = digitsVal (digitsVal acc xs) ys := by
  induction xs generalizing acc with
  | nil => rw [List.nil_append, digitsVal_nil]
  | cons c xs ih => rw [List.cons_append, digitsVal_cons, digitsVal_cons, ih]

theorem digitsVal_natChars (n : Nat) :
    ∀ acc, digitsVal acc (natChars n) = acc * 10 ^ (natChars n).length + n := by
  induction n using Nat.strong_induction_on with
  | _ n ih =>
    intro acc
    rw [natChars_eq]
    split
    · next h =>
      rw [digitsVal_cons, digitsVal_nil, digitChar_val h]
      simp only [List.length_singleton, pow_one]
      omega
    · next h =>
      rw [digitsVal_append, ih (n / 10) (Nat.div_lt_self (by omega) (by omega)),
        digitsVal_cons, digitsVal_nil, digitChar_val (Nat.mod_lt n (by omega)),
        List.length_append, List.length_singleton, pow_succ]
      have h10 : 10 * (n / 10) + n % 10 = n := Nat.div_add_mod n 10
      calc 10 * (acc * 10 ^ (natChars (n / 10)).length + n / 10) + n % 10
          = acc * (10 ^ (natChars (n / 10)).length * 10) + (10 * (n / 10) + n % 10) := by
            ring
        _ = acc * (10 ^ (natChars (n / 10)).length * 10) + n := by rw [h10]

theorem span_digits_append {l rest : List Char} (hl : ∀ c ∈ l, c.isDigit = true)
    (hr : noDigitHead rest = true) :
    (l ++ rest).takeWhile Char.isDigit = l ∧ (l ++ rest).dropWhile Char.isDigit = rest := by
  induction l with
  | nil =>
    cases rest with
    | nil => simp
    | cons c r =>
      simp only [noDigitHead, Bool.not_eq_true'] at hr
      simp [List.takeWhile_cons, List.dropWhile_cons, hr]
  | cons c l ih =>
    have hc : c.isDigit = true := hl c (List.mem_cons_self c l)
    have hrec := ih (fun x hx => hl x (List.mem_cons_of_mem c hx))
    simp [List.takeWhile_cons, List.dropWhile_cons, hc, hrec.1, hrec.2]

theorem charOfNat?_toNat (c : Char) : charOfNat? c.toNat = some c := by
  have h : c.toNat.isValidChar := c.valid
  rw [charOfNat?, if_pos h, Char.ofNat_toNat]

theorem hexVal?_hexDigit {d : Nat} (h : d < 16) : hexVal? (hexDigit d) = some d := by
  interval_cases d <;> decide

/-! ## The string-literal printer inverts the string-literal parser -/

theorem parseStrAux_quote (acc cs : List Char) :
    parseStrAux acc ('"' :: cs) = some (⟨acc.reverse⟩, cs) := by
  simp [parseStrAux]

theorem parseStrAux_esc (acc : List Char) (e : Char) (l : List Char) :
    parseStrAux acc ('\\' :: e :: l) = parseEsc acc (e :: l) := by
  simp [parseStrAux]

theorem parseStrAux_plain {c : Char} (h1 : ¬ c = '"') (h2 : ¬ c = '\\')
    (h3 : ¬ c.toNat < 32) (acc cs : List Char) :
    parseStrAux acc (c :: cs) = parseStrAux (c :: acc) cs := by
  simp only [parseStrAux, if_neg h1, if_neg h2, if_neg h3]

theorem parseU_known {a b c2 d : Char} {va vb vc vd : Nat} {ch : Char}
    (e1 : hexVal? a = some va) (e2 : hexVal? b = some vb) (e3 : hexVal? c2 = some vc)
    (e4 : hexVal? d = some vd)
    (ech : charOfNat? (4096 * va + 256 * vb + 16 * vc + vd) = some ch)
    (acc l : List Char) :
    parseU acc (a :: b :: c2 :: d :: l) = parseStrAux (ch :: acc) l := by
  simp only [parseU, e1, e2, e3, e4, ech]

theorem parseStrAux_print (cs : List Char) :
    ∀ acc rest, parseStrAux acc (strBody cs ++ ('"' :: rest)) =
      some (⟨acc.reverse ++ cs⟩, rest) := by
  induction cs with
  | nil =>
    intro acc rest
    simp only [strBody, List.map_nil, List.flatten_nil, List.nil_append]
    rw [parseStrAux_quote]
    simp
  | cons c cs ih =>
    intro acc rest
    rw [show strBody (c :: cs) = escapeChar c ++ strBody cs from by simp [strBody],
      List.append_assoc]
    have key : ∀ X : Char, escapeChar c = ['\\', X] →
        (∀ a l, parseEsc a (X :: l) = parseStrAux (c :: a) l) →
        parseStrAux acc (escapeChar c ++ (strBody cs ++ ('"' :: rest))) =
          some (⟨acc.reverse ++ c :: cs⟩, rest) := by
      intro X hE hP
      rw [hE]
      simp only [List.cons_append, List.nil_append]
      rw [parseStrAux_esc, hP, ih]
      simp
    by_cases h1 : c = '"'
    · subst h1
      exact key '"' (by decide) (fun a l => by simp [parseEsc])
    · by_cases h2 : c = '\\'
      · subst h2
        exact key '\\' (by decide) (fun a l => by simp [parseEsc])
      · by_cases h3 : c = '\n'
        · subst h3
          exact key 'n' (by decide) (fun a l => by simp [parseEsc])
        · by_cases h4 : c = '\t'
          · subst h4
            exact key 't' (by decide) (fun a l => by simp [parseEsc])
          · by_cases h5 : c = '\r'
            · subst h5
              exact key 'r' (by decide) (fun a l => by simp [parseEsc])
            · by_cases h6 : c = '\x08'
              · subst h6
                exact key 'b' (by decide) (fun a l => by simp [parseEsc])
              · by_cases h7 : c = '\x0c'
                · subst h7
                  exact key 'f' (by decide) (fun a l => by simp [parseEsc])
                · by_cases h8 : c.toNat < 32
                  · have e0 : hexVal? '0' = some 0 := rfl
                    have ehi : hexVal? (hexDigit (c.toNat / 16)) = some (c.toNat / 16) :=
                      hexVal?_hexDigit (by omega)
                    have elo : hexVal? (hexDigit (c.toNat % 16)) = some (c.toNat % 16) :=
                      hexVal?_hexDigit (by omega)
                    have echar : charOfNat?
                        (4096 * 0 + 256 * 0 + 16 * (c.toNat / 16) + c.toNat % 16) = some c := by
                      rw [show 4096 * 0 + 256 * 0 + 16 * (c.toNat / 16) + c.toNat % 16 = c.toNat
                        from by omega]
                      exact charOfNat?_toNat c
                    rw [show escapeChar c =
                        ['\\', 'u', '0', '0', hexDigit (c.toNat / 16), hexDigit (c.toNat % 16)]
                      from by
                        simp only [escapeChar, if_neg h1, if_neg h2, if_neg h3, if_neg h4,
                          if_neg h5, if_neg h6, if_neg h7, if_pos h8]]
                    simp only [List.cons_append, List.nil_append]
                    rw [parseStrAux_esc,
                      show ∀ a l, parseEsc a ('u' :: l) = parseU a l from
                        fun a l => by simp [parseEsc],
                      parseU_known e0 e0 ehi elo echar, ih]
                    simp
                  · rw [show escapeChar c = [c] from by
                      simp only [escapeChar, if_neg h1, if_neg h2, if_neg h3, if_neg h4,
                        if_neg h5, if_neg h6, if_neg h7, if_neg h8],
                      List.singleton_append, parseStrAux_plain h1 h2 h8, ih]
                    simp

theorem parseStr_print (s : String) (rest : List Char) :
    parseStr (strBody s.data ++ ('"' :: rest)) = some (s, rest) := by
  rw [parseStr, parseStrAux_print]
  rfl

/-! ## Fuel adequacy for the value parser -/

mutual
/-- Fuel needed by `parseVal` to parse the printed form of a value. -/
def fuelV : Json → Nat
  | .null => 1
  | .bool _ => 1
  | .num _ => 1
  | .str _ => 1
  | .arr es => 1 + fuelA es
  | .obj ms => 1 + fuelO ms
/-- Fuel needed by `parseArrRest` after the first element of an array. -/
def fuelA : JsonArr → Nat
  | .nil => 1
  | .cons h t => 1 + fuelV h + fuelA t
/-- Fuel needed by `parseObjRest` after the first member of an object. -/
def fuelO : JsonObj → Nat
  | .nil => 1
  | .cons _ v t => 2 + fuelV v + fuelO t
end

theorem fuelV_pos (v : Json) : 1 ≤ fuelV v := by
  cases v <;> simp [fuelV] <;> omega

theorem fuelA_pos (t : JsonArr) : 1 ≤ fuelA t := by
  cases t <;> simp [fuelA] <;> omega

theorem fuelO_pos (t : JsonObj) : 1 ≤ fuelO t := by
  cases t <;> simp [fuelO] <;> omega

theorem isDigit_facts {c : Char} (h : c.isDigit = true) :
    ¬ c = 'n' ∧ ¬ c = 't' ∧ ¬ c = 'f' ∧ ¬ c = '"' ∧ ¬ c = '[' ∧ ¬ c = '\x7b' ∧
      ¬ c = '-' ∧ isJsonWs c = false ∧ ¬ c = ']' ∧ ¬ c = '\x7d' := by
  refine ⟨?_, ?_, ?_, ?_, ?_, ?_, ?_, ?_, ?_, ?_⟩
  case refine_8 =>
    cases hw : isJsonWs c
    · rfl
    · rw [ws_not_digit hw] at h
      exact absurd h (by decide)
  all_goals intro hc
  all_goals rw [hc] at h
  all_goals exact absurd h (by decide)

theorem natChars_head (m : Nat) :
    ∃ d ds, natChars m = d :: ds ∧ d.isDigit = true := by
  cases h : natChars m with
  | nil => exact absurd h (natChars_ne_nil _)
  | cons d ds =>
    refine ⟨d, ds, rfl, natChars_all_digit m d ?_⟩
    rw [h]
    exact List.mem_cons_self _ _

theorem printVal_head (ind : Nat) (v : Json) :
    ∃ c tl, printVal ind v = c :: tl ∧ isJsonWs c = false ∧ ¬ c = ']' ∧ ¬ c = '\x7d' := by
  cases v with
  | null => exact ⟨'n', _, rfl, by decide, by decide, by decide⟩
  | bool b =>
    cases b
    · exact ⟨'f', _, rfl, by decide, by decide, by decide⟩
    · exact ⟨'t', _, rfl, by decide, by decide, by decide⟩
  | num n =>
    by_cases hn : n < 0
    · refine ⟨'-', natChars n.natAbs, ?_, by decide, by decide, by decide⟩
      rw [show printVal ind (.num n) = intChars n from rfl, intChars, if_pos hn]
    · obtain ⟨d, ds, hnd, hd⟩ := natChars_head n.natAbs
      obtain ⟨_, _, _, _, _, _, _, hws, hrb, hcb⟩ := isDigit_facts hd
      refine ⟨d, ds, ?_, hws, hrb, hcb⟩
      rw [show printVal ind (.num n) = intChars n from rfl, intChars, if_neg hn, hnd]
  | str s => exact ⟨'"', _, rfl, by decide, by decide, by decide⟩
  | arr es =>
    cases es
    · exact ⟨'[', _, rfl, by decide, by decide, by decide⟩
    · exact ⟨'[', _, rfl, by decide, by decide, by decide⟩
  | obj ms =>
    cases ms
    · exact ⟨'\x7b', _, rfl, by decide, by decide, by decide⟩
    · exact ⟨'\x7b', _, rfl, by decide, by decide, by decide⟩

theorem skipWs_w_print {w : List Char} (hw : wsOnly w = true) (ind : Nat) (v : Json)
    (rest : List Char) :
    skipWs (w ++ (printVal ind v ++ rest)) = printVal ind v ++ rest := by
  rw [skipWs_wsOnly_append hw]
  obtain ⟨c, tl, hpr, hcw, _, _⟩ := printVal_head ind v
  rw [hpr, List.cons_append, skipWs_cons_of_neg hcw]

theorem noDigitHead_arrTail (ind : Nat) (t : JsonArr) {w : List Char}
    (hw : wsOnly w = true) (z : List Char) :
    noDigitHead (printArrTail ind t ++ (w ++ (']' :: z))) = true := by
  cases t with
  | nil =>
    rw [show printArrTail ind .nil = [] from rfl, List.nil_append]
    exact noDigitHead_ws_append hw (by decide) z
  | cons h t =>
    rw [show printArrTail ind (.cons h t) =
      ',' :: '\n' :: (pad ind ++ (printVal ind h ++ printArrTail ind t)) from rfl]
    simp [noDigitHead]

theorem noDigitHead_objTail (ind : Nat) (t : JsonObj) {w : List Char}
    (hw : wsOnly w = true) (z : List Char) :
    noDigitHead (printObjTail ind t ++ (w ++ ('\x7d' :: z))) = true := by
  cases t with
  | nil =>
    rw [show printObjTail ind .nil = [] from rfl, List.nil_append]
    exact noDigitHead_ws_append hw (by decide) z
  | cons k v t =>
    rw [show printObjTail ind (.cons k v t) =
      ',' :: '\n' :: (pad ind ++ (quoteChars k ++ (':' :: ' ' ::
        (printVal ind v ++ printObjTail ind t)))) from rfl]
    simp [noDigitHead]


theorem parseVal_neg_dispatch (f : Nat) {cs0 cs : List Char}
    (hsk : skipWs cs0 = '-' :: cs) :
    parseVal (f + 1) cs0 =
      (match spanDigits cs with
       | ([], _) => none
       | (ds, rest) => some (.num (-(digitsVal 0 ds : Int)), rest)) := by
  simp only [parseVal]
  rw [hsk]
  simp +decide

theorem parseVal_digit_dispatch {d : Char} (hd : d.isDigit = true) (f : Nat)
    {cs0 cs : List Char} (hsk : skipWs cs0 = d :: cs) :
    parseVal (f + 1) cs0 =
      some (.num ((digitsVal 0 ((d :: cs).takeWhile Char.isDigit) : Int)),
        (d :: cs).dropWhile Char.isDigit) := by
  obtain ⟨f1, f2, f3, f4, f5, f6, f7, _, _, _⟩ := isDigit_facts hd
  simp only [parseVal]
  rw [hsk]
  simp +decide [f1, f2, f3, f4, f5, f6, f7, hd]

set_option maxHeartbeats 1000000 in
theorem parse_print : ∀ fuel : Nat,
    (∀ v ind w rest, fuelV v ≤ fuel → wsOnly w = true → noDigitHead rest = true →
      parseVal fuel (w ++ (printVal ind v ++ rest)) = some (v, rest)) ∧
    (∀ t ind w rest, fuelA t ≤ fuel → wsOnly w = true →
      parseArrRest fuel (printArrTail ind t ++ (w ++ (']' :: rest))) = some (t, rest)) ∧
    (∀ t ind w rest, fuelO t ≤ fuel → wsOnly w = true →
      parseObjRest fuel (printObjTail ind t ++ (w ++ ('\x7d' :: rest))) = some (t, rest)) ∧
    (∀ k v ind w rest, 1 + fuelV v ≤ fuel → wsOnly w = true → noDigitHead rest = true →
      parseMember fuel (w ++ (quoteChars k ++ (':' :: ' ' :: (printVal ind v ++ rest)))) =
        some (k, v, rest)) := by
  intro fuel
  induction fuel with
  | zero =>
    refine ⟨?_, ?_, ?_, ?_⟩
    · intro v _ _ _ hf _ _
      exact absurd hf (by have := fuelV_pos v; omega)
    · intro t _ _ _ hf _
      exact absurd hf (by have := fuelA_pos t; omega)
    · intro t _ _ _ hf _
      exact absurd hf (by have := fuelO_pos t; omega)
    · intro k v _ _ _ hf _ _
      exact absurd hf (by omega)
  | succ f ih =>
    obtain ⟨ihV, ihA, ihO, ihM⟩ := ih
    refine ⟨?_, ?_, ?_, ?_⟩
    · -- parseVal
      intro v ind w rest hf hw hr
      cases v with
      | null =>
        simp only [parseVal]
        rw [skipWs_w_print hw]
        simp +decide [printVal]
      | bool b =>
        cases b <;>
          (simp only [parseVal]; rw [skipWs_w_print hw]; simp +decide [printVal])
      | num n =>
        obtain ⟨hspanT, hspanD⟩ := span_digits_append (natChars_all_digit n.natAbs) hr
        obtain ⟨d, ds, hnd, hd⟩ := natChars_head n.natAbs
        by_cases hn : n < 0
        · have hsk : skipWs (w ++ (printVal ind (.num n) ++ rest)) =
              '-' :: (natChars n.natAbs ++ rest) := by
            rw [skipWs_w_print hw, show printVal ind (.num n) = intChars n from rfl, intChars,
              if_pos hn, List.cons_append]
          rw [parseVal_neg_dispatch f hsk]
          have hspan : spanDigits (natChars n.natAbs ++ rest) = (d :: ds, rest) := by
            rw [show spanDigits (natChars n.natAbs ++ rest) =
              ((natChars n.natAbs ++ rest).takeWhile Char.isDigit,
                (natChars n.natAbs ++ rest).dropWhile Char.isDigit) from rfl,
              hspanT, hspanD, hnd]
          rw [hspan]
          show some (Json.num (-(digitsVal 0 (d :: ds) : Int)), rest) = some (Json.num n, rest)
          rw [← hnd, digitsVal_natChars]
          simp
          rw [abs_of_neg hn]
          exact neg_neg n
        · have hsk : skipWs (w ++ (printVal ind (.num n) ++ rest)) = d :: (ds ++ rest) := by
            rw [skipWs_w_print hw, show printVal ind (.num n) = intChars n from rfl, intChars,
              if_neg hn, hnd, List.cons_append]
          rw [parseVal_digit_dispatch hd f hsk]
          rw [show d :: (ds ++ rest) = natChars n.natAbs ++ rest from by
            rw [hnd, List.cons_append]]
          rw [hspanT, hspanD, digitsVal_natChars]
          simp
          omega
      | str s =>
        simp only [parseVal]
        rw [skipWs_w_print hw]
        rw [show printVal ind (.str s) = quoteChars s from rfl, quoteChars]
        simp only [List.cons_append, List.append_assoc, List.singleton_append]
        have hps := parseStr_print s rest
        simp +decide [hps]
      | arr es =>
        cases es with
        | nil =>
          simp only [parseVal]
          rw [skipWs_w_print hw]
          rw [show printVal ind (.arr .nil) = ['[', ']'] from rfl]
          simp only [List.cons_append, List.nil_append]
          rw [show skipWs (']' :: rest) = ']' :: rest from skipWs_cons_of_neg (by decide) _]
          simp +decide
        | cons h t =>
          have hfh : fuelV h ≤ f := by
            simp only [fuelV, fuelA] at hf; omega
          have hft : fuelA t ≤ f := by
            simp only [fuelV, fuelA] at hf; omega
          have hv1 := ihV h (ind + 2) ('\n' :: pad (ind + 2))
            (printArrTail (ind + 2) t ++ (('\n' :: pad ind) ++ (']' :: rest))) hfh
            (wsOnly_nl_pad _) (noDigitHead_arrTail _ _ (wsOnly_nl_pad _) _)
          have ha1 := ihA t (ind + 2) ('\n' :: pad ind) rest hft (wsOnly_nl_pad _)
          simp only [List.cons_append] at hv1 ha1
          simp only [parseVal]
          rw [skipWs_w_print hw]
          rw [show printVal ind (.arr (.cons h t)) =
            '[' :: '\n' :: (pad (ind + 2) ++ (printVal (ind + 2) h ++
              (printArrTail (ind + 2) t ++ ('\n' :: (pad ind ++ [']']))))) from rfl]
          simp only [List.cons_append, List.append_assoc, List.singleton_append]
          have hskip : skipWs ('\n' :: (pad (ind + 2) ++ (printVal (ind + 2) h ++
              (printArrTail (ind + 2) t ++ ('\n' :: (pad ind ++ (']' :: rest))))))) =
              printVal (ind + 2) h ++
                (printArrTail (ind + 2) t ++ ('\n' :: (pad ind ++ (']' :: rest)))) := by
            have := skipWs_w_print (wsOnly_nl_pad (ind + 2)) (ind + 2) h
              (printArrTail (ind + 2) t ++ ('\n' :: (pad ind ++ (']' :: rest))))
            simpa [List.cons_append] using this
          obtain ⟨c0, tl0, hpr0, _, hnb, _⟩ := printVal_head (ind + 2) h
          simp only [hpr0, List.cons_append] at hv1 hskip
          rw [hpr0]
          simp +decide [hskip, hv1, ha1, List.cons_append, hnb]
      | obj ms =>
        cases ms with
        | nil =>
          simp only [parseVal]
          rw [skipWs_w_print hw]
          rw [show printVal ind (.obj .nil) = ['\x7b', '\x7d'] from rfl]
          simp only [List.cons_append, List.nil_append]
          rw [show skipWs ('\x7d' :: rest) = '\x7d' :: rest from skipWs_cons_of_neg (by decide) _]
          simp +decide
        | cons k v t =>
          have hfm : 1 + fuelV v ≤ f := by
            simp only [fuelV, fuelO] at hf; omega
          have hfo : fuelO t ≤ f := by
            simp only [fuelV, fuelO] at hf; omega
          have hm1 := ihM k v (ind + 2) ('\n' :: pad (ind + 2))
            (printObjTail (ind + 2) t ++ (('\n' :: pad ind) ++ ('\x7d' :: rest))) hfm
            (wsOnly_nl_pad _) (noDigitHead_objTail _ _ (wsOnly_nl_pad _) _)
          have ho1 := ihO t (ind + 2) ('\n' :: pad ind) rest hfo (wsOnly_nl_pad _)
          simp only [List.cons_append] at hm1 ho1
          simp only [parseVal]
          rw [skipWs_w_print hw]
          rw [show printVal ind (.obj (.cons k v t)) =
            '\x7b' :: '\n' :: (pad (ind + 2) ++ (quoteChars k ++ (':' :: ' ' ::
              (printVal (ind + 2) v ++
                (printObjTail (ind + 2) t ++ ('\n' :: (pad ind ++ ['\x7d']))))))) from rfl]
          simp only [List.cons_append, List.append_assoc, List.singleton_append]
          have hskip : skipWs ('\n' :: (pad (ind + 2) ++ (quoteChars k ++ (':' :: ' ' ::
              (printVal (ind + 2) v ++
                (printObjTail (ind + 2) t ++ ('\n' :: (pad ind ++ ('\x7d' :: rest))))))))) =
              quoteChars k ++ (':' :: ' ' :: (printVal (ind + 2) v ++
                (printObjTail (ind + 2) t ++ ('\n' :: (pad ind ++ ('\x7d' :: rest)))))) := by
            rw [skipWs_cons_of_pos (by decide), skipWs_wsOnly_append (wsOnly_pad _), quoteChars,
              List.cons_append, skipWs_cons_of_neg (by decide)]
          have hqh : (quoteChars k).head? = some '"' := by
            rw [quoteChars]
            rfl
          have hqnil : (quoteChars k = []) = False := by
            rw [quoteChars]
            simp
          simp +decide [hskip, hm1, ho1, hqh, hqnil]
    · -- parseArrRest
      intro t ind w rest hft hw
      cases t with
      | nil =>
        rw [show printArrTail ind .nil = [] from rfl, List.nil_append]
        simp only [parseArrRest]
        rw [skipWs_wsOnly_append hw, show skipWs (']' :: rest) = ']' :: rest from
          skipWs_cons_of_neg (by decide) _]
        simp
      | cons h t =>
        have hfh : fuelV h ≤ f := by
          simp only [fuelA] at hft; omega
        have hft' : fuelA t ≤ f := by
          simp only [fuelA] at hft; omega
        have hv1 := ihV h ind ('\n' :: pad ind)
          (printArrTail ind t ++ (w ++ (']' :: rest))) hfh (wsOnly_nl_pad _)
          (noDigitHead_arrTail _ _ hw _)
        have ha1 := ihA t ind w rest hft' hw
        simp only [List.cons_append] at hv1
        rw [show printArrTail ind (.cons h t) =
          ',' :: '\n' :: (pad ind ++ (printVal ind h ++ printArrTail ind t)) from rfl]
        simp only [List.cons_append, List.append_assoc]
        simp only [parseArrRest]
        rw [show skipWs (',' :: '\n' :: (pad ind ++ (printVal ind h ++
            (printArrTail ind t ++ (w ++ (']' :: rest)))))) =
          ',' :: '\n' :: (pad ind ++ (printVal ind h ++
            (printArrTail ind t ++ (w ++ (']' :: rest))))) from
          skipWs_cons_of_neg (by decide) _]
        simp +decide [hv1, ha1]
    · -- parseObjRest
      intro t ind w rest hfo hw
      cases t with
      | nil =>
        rw [show printObjTail ind .nil = [] from rfl, List.nil_append]
        simp only [parseObjRest]
        rw [skipWs_wsOnly_append hw, show skipWs ('\x7d' :: rest) = '\x7d' :: rest from
          skipWs_cons_of_neg (by decide) _]
        simp
      | cons k v t =>
        have hfm : 1 + fuelV v ≤ f := by
          simp only [fuelO] at hfo; omega
        have hfo' : fuelO t ≤ f := by
          simp only [fuelO] at hfo; omega
        have hm1 := ihM k v ind ('\n' :: pad ind)
          (printObjTail ind t ++ (w ++ ('\x7d' :: rest))) hfm (wsOnly_nl_pad _)
          (noDigitHead_objTail _ _ hw _)
        have ho1 := ihO t ind w rest hfo' hw
        simp only [List.cons_append] at hm1
        rw [show printObjTail ind (.cons k v t) =
          ',' :: '\n' :: (pad ind ++ (quoteChars k ++ (':' :: ' ' ::
            (printVal ind v ++ printObjTail ind t)))) from rfl]
        simp only [List.cons_append, List.append_assoc]
        simp only [parseObjRest]
        rw [show skipWs (',' :: '\n' :: (pad ind ++ (quoteChars k ++ (':' :: ' ' ::
            (printVal ind v ++ (printObjTail ind t ++ (w ++ ('\x7d' :: rest)))))))) =
          ',' :: '\n' :: (pad ind ++ (quoteChars k ++ (':' :: ' ' ::
            (printVal ind v ++ (printObjTail ind t ++ (w ++ ('\x7d' :: rest))))))) from
          skipWs_cons_of_neg (by decide) _]
        simp +decide [hm1, ho1]
    · -- parseMember
      intro k v ind w rest hfm hw hr
      have hfv : fuelV v ≤ f := by omega
      have hv1 := ihV v ind [' '] rest hfv (by decide) hr
      simp only [List.singleton_append] at hv1
      simp only [parseMember]
      rw [skipWs_wsOnly_append hw, quoteChars, List.cons_append,
        show skipWs ('"' :: ((strBody k.data ++ ['"']) ++
          (':' :: ' ' :: (printVal ind v ++ rest)))) =
          '"' :: ((strBody k.data ++ ['"']) ++ (':' :: ' ' :: (printVal ind v ++ rest))) from
          skipWs_cons_of_neg (by decide) _]
      have hps := parseStr_print k (':' :: ' ' :: (printVal ind v ++ rest))
      have hsk2 : skipWs (':' :: ' ' :: (printVal ind v ++ rest)) =
          ':' :: ' ' :: (printVal ind v ++ rest) := skipWs_cons_of_neg (by decide) _
      simp +decide [hps, hv1, hsk2]


theorem quoteChars_length (s : String) :
    (quoteChars s).length = (strBody s.data).length + 2 := by
  simp [quoteChars]

mutual
theorem fuelV_le (ind : Nat) (v : Json) : fuelV v ≤ (printVal ind v).length := by
  cases v with
  | null => simp [fuelV, printVal]
  | bool b => cases b <;> simp [fuelV, printVal]
  | num n =>
    have h := natChars_ne_nil n.natAbs
    have hlen : 1 ≤ (natChars n.natAbs).length := List.length_pos.mpr h
    by_cases hn : n < 0 <;>
      simp [fuelV, printVal, intChars, hn] <;> omega
  | str s =>
    simp [fuelV, printVal, quoteChars]
  | arr es =>
    cases es with
    | nil => simp [fuelV, fuelA, printVal]
    | cons h t =>
      have h1 := fuelV_le (ind + 2) h
      have h2 := fuelA_le (ind + 2) t
      simp only [fuelV, fuelA, printVal, List.length_cons, List.length_append, pad,
        List.length_replicate, List.length_singleton]
      omega
  | obj ms =>
    cases ms with
    | nil => simp [fuelV, fuelO, printVal]
    | cons k v t =>
      have h1 := fuelV_le (ind + 2) v
      have h2 := fuelO_le (ind + 2) t
      simp only [fuelV, fuelO, printVal, List.length_cons, List.length_append, pad,
        List.length_replicate, List.length_singleton]
      omega
theorem fuelA_le (ind : Nat) (t : JsonArr) : fuelA t ≤ (printArrTail ind t).length + 2 := by
  cases t with
  | nil => simp [fuelA, printArrTail]
  | cons h t =>
    have h1 := fuelV_le ind h
    have h2 := fuelA_le ind t
    simp only [fuelA, printArrTail, List.length_cons, List.length_append, pad,
      List.length_replicate]
    omega
theorem fuelO_le (ind : Nat) (t : JsonObj) : fuelO t ≤ (printObjTail ind t).length + 2 := by
  cases t with
  | nil => simp [fuelO, printObjTail]
  | cons k v t =>
    have h1 := fuelV_le ind v
    have h2 := fuelO_le ind t
    simp only [fuelO, printObjTail, List.length_cons, List.length_append, pad,
      List.length_replicate]
    omega
end

theorem loads_dumps (v : Json) : loads (dumps v) = some v := by
  have hf : fuelV v ≤ (printVal 0 v).length + 1 :=
    le_trans (fuelV_le 0 v) (Nat.le_succ _)
  have h := (parse_print ((printVal 0 v).length + 1)).1 v 0 [] [] hf rfl rfl
  simp only [List.nil_append, List.append_nil] at h
  have hdata : (dumps v).data = printVal 0 v := rfl
  simp only [loads, hdata, h]
  rfl


/-! ## Helper lemmas about the handler -/

theorem takeBytes_zero (cs : List Char) : takeBytes cs 0 = some [] := by
  cases cs <;> rfl

theorem charBytes_pos (c : Char) : 1 ≤ charBytes c := by
  unfold charBytes
  split_ifs <;> omega

theorem takeBytes_full : ∀ cs : List Char, takeBytes cs (byteLen cs) = some cs
  | [] => rfl
  | c :: cs => by
    have h1 := charBytes_pos c
    have hb : byteLen (c :: cs) = charBytes c + byteLen cs := by simp [byteLen]
    obtain ⟨k, hk⟩ : ∃ k, byteLen (c :: cs) = k + 1 := ⟨byteLen (c :: cs) - 1, by omega⟩
    rw [hk]
    simp only [takeBytes]
    rw [if_pos (by omega), show k + 1 - charBytes c = byteLen cs from by omega,
      takeBytes_full cs]
    rfl

theorem readDecoded_full (body : String) :
    readDecoded body ((byteLen body.data : Nat) : Int) = .ok body := by
  have h0 : ¬ ((byteLen body.data : Nat) : Int) < 0 := by omega
  rw [readDecoded, if_neg h0, Int.toNat_natCast, takeBytes_full]

theorem readDecoded_zero (body : String) : readDecoded body 0 = .ok "" := by
  have h0 : ¬ (0 : Int) < 0 := by omega
  rw [readDecoded, if_neg h0, show (0 : Int).toNat = 0 from rfl, takeBytes_zero]

theorem doPOST_success (req : Request) (file : FileState) (hv : String) (cl : Int)
    (pd : String) (v : Json) (hp : req.path = "/save-config")
    (hh : getHeader req.headers "Content-Length" = some hv)
    (hn : parsePyInt hv = some cl) (hrd : readDecoded req.body cl = Except.ok pd)
    (hld : loads pd = some v) :
    doPOST none req file = .replied ok200 (some (dumps v)) := by
  simp [doPOST, if_pos hp, hh, pyInt, hn, hrd, loadsE, hld]

theorem doPOST_invalid (fsFail : Option String) (req : Request) (file : FileState)
    (hv : String) (cl : Int) (pd : String) (hp : req.path = "/save-config")
    (hh : getHeader req.headers "Content-Length" = some hv)
    (hn : parsePyInt hv = some cl) (hrd : readDecoded req.body cl = Except.ok pd)
    (hld : loads pd = none) :
    doPOST fsFail req file = .replied (err500 invalidJsonMsg) file := by
  simp [doPOST, if_pos hp, hh, pyInt, hn, hrd, loadsE, hld]

theorem doPOST_readerr (fsFail : Option String) (req : Request) (file : FileState)
    (hv : String) (cl : Int) (m : String) (hp : req.path = "/save-config")
    (hh : getHeader req.headers "Content-Length" = some hv)
    (hn : parsePyInt hv = some cl) (hrd : readDecoded req.body cl = Except.error m) :
    doPOST fsFail req file = .replied (err500 m) file := by
  simp [doPOST, if_pos hp, hh, pyInt, hn, hrd]

theorem doPOST_fsfail (req : Request) (file : FileState) (hv : String) (cl : Int)
    (pd : String) (v : Json) (m : String) (hp : req.path = "/save-config")
    (hh : getHeader req.headers "Content-Length" = some hv)
    (hn : parsePyInt hv = some cl) (hrd : readDecoded req.body cl = Except.ok pd)
    (hld : loads pd = some v) :
    doPOST (some m) req file = .replied (err500 m) file := by
  simp [doPOST, if_pos hp, hh, pyInt, hn, hrd, loadsE, hld]

theorem doPOST_uncaught (fsFail : Option String) (req : Request) (file : FileState)
    (m : String) (hp : req.path = "/save-config")
    (hcl : pyInt (getHeader req.headers "Content-Length") = .error m) :
    doPOST fsFail req file = .uncaught m file := by
  simp [doPOST, if_pos hp, hcl]

theorem doPOST_notfound (fsFail : Option String) (req : Request) (file : FileState)
    (hp : req.path ≠ "/save-config") :
    doPOST fsFail req file = .replied notFound404 file := by
  simp [doPOST, if_neg hp]

/-! ## Claims -/

/-- C1: for a POST to /save-config whose body is a well-formed JSON document
`X` and whose Content-Length equals the body's byte length, the handler
answers 200 with Content-Type application/json and exact body
`\x7b"success": true\x7d`, and the config file afterwards parses deep-equal
to `X`. -/
theorem save_config_success_contract (req : Request) (file : FileState)
    (hv : String) (X : Json) (hp : req.path = "/save-config")
    (hh : getHeader req.headers "Content-Length" = some hv)
    (hn : parsePyInt hv = some ((byteLen req.body.data : Nat) : Int))
    (hj : loads req.body = some X) :
    doPOST none req file = .replied ok200 (some (dumps X)) ∧
      ok200.status = 200 ∧ ok200.contentType = some "application/json" ∧
      ok200.body = "\x7b\"success\": true\x7d" ∧ loads (dumps X) = some X :=
  ⟨doPOST_success req file hv _ req.body X hp hh hn (readDecoded_full req.body) hj,
    rfl, rfl, rfl, loads_dumps X⟩

theorem save_config_success_contract_witness :
    doPOST none ⟨"/save-config", [("Content-Length", "8")], "\x7b\"a\": 1\x7d"⟩ none =
        .replied ok200 (some (dumps (Json.obj (.cons "a" (.num 1) .nil)))) ∧
      ok200.status = 200 ∧ ok200.contentType = some "application/json" ∧
      ok200.body = "\x7b\"success\": true\x7d" ∧
      loads (dumps (Json.obj (.cons "a" (.num 1) .nil))) =
        some (Json.obj (.cons "a" (.num 1) .nil)) :=
  save_config_success_contract ⟨"/save-config", [("Content-Length", "8")], "\x7b\"a\": 1\x7d"⟩
    none "8" (Json.obj (.cons "a" (.num 1) .nil)) rfl rfl rfl rfl

/-- C2 counterexample: a POST to /save-config with an absent (or non-numeric)
Content-Length header raises on line 11, before the `try` block: the exception
escapes `do_POST` and no HTTP response — in particular no 500 — is produced by
this code. This refutes the claim that every failure cause is caught at a
single point and answered with a 500. -/
theorem content_length_failure_uncaught_cex :
    doPOST none ⟨"/save-config", [], "\x7b\x7d"⟩ none = .uncaught typeErrorMsg none ∧
      (doPOST none ⟨"/save-config", [], "\x7b\x7d"⟩ none).respOf = none ∧
      doPOST none ⟨"/save-config", [("Content-Length", "abc")], "\x7b\x7d"⟩ none =
        .uncaught (valueErrorMsg "abc") none ∧
      (doPOST none ⟨"/save-config", [("Content-Length", "abc")], "\x7b\x7d"⟩ none).respOf =
        none :=
  ⟨rfl, rfl, rfl, rfl⟩

/-- C2 amended: the failures that occur inside the `try` block — malformed
JSON and filesystem errors — are caught at the single `except` and answered
uniformly with HTTP 500, Content-Type application/json and body
`\x7b"error": <message>\x7d` carrying the failure's textual description; an
absent or non-numeric Content-Length raises before the `try` block, is not
caught by the handler, and produces no response at all. -/
theorem error_paths_amended :
    (∀ req file hv cl pd, req.path = "/save-config" →
      getHeader req.headers "Content-Length" = some hv → parsePyInt hv = some cl →
      readDecoded req.body cl = Except.ok pd → loads pd = none →
      doPOST none req file = .replied (err500 invalidJsonMsg) file) ∧
    (∀ req file hv cl pd v m, req.path = "/save-config" →
      getHeader req.headers "Content-Length" = some hv → parsePyInt hv = some cl →
      readDecoded req.body cl = Except.ok pd → loads pd = some v →
      doPOST (some m) req file = .replied (err500 m) file) ∧
    (∀ fsFail req file m, req.path = "/save-config" →
      pyInt (getHeader req.headers "Content-Length") = .error m →
      doPOST fsFail req file = .uncaught m file) ∧
    (∀ m, err500 m = ⟨500, some "application/json", errorBody m⟩) := by
  refine ⟨?_, ?_, ?_, fun m => rfl⟩
  · intro req file hv cl pd hp hh hn hrd hld
    exact doPOST_invalid none req file hv cl pd hp hh hn hrd hld
  · intro req file hv cl pd v m hp hh hn hrd hld
    exact doPOST_fsfail req file hv cl pd v m hp hh hn hrd hld
  · intro fsFail req file m hp hcl
    exact doPOST_uncaught fsFail req file m hp hcl

theorem error_paths_amended_witness :
    doPOST none ⟨"/save-config", [("Content-Length", "8")], "not json"⟩ none =
        .replied (err500 invalidJsonMsg) none ∧
      doPOST (some "Permission denied")
          ⟨"/save-config", [("Content-Length", "8")], "\x7b\"a\": 1\x7d"⟩ none =
        .replied (err500 "Permission denied") none ∧
      doPOST none ⟨"/save-config", [], "\x7b\x7d"⟩ none = .uncaught typeErrorMsg none :=
  ⟨error_paths_amended.1 ⟨"/save-config", [("Content-Length", "8")], "not json"⟩
      none "8" 8 "not json" rfl rfl rfl rfl rfl,
   error_paths_amended.2.1 ⟨"/save-config", [("Content-Length", "8")], "\x7b\"a\": 1\x7d"⟩
      none "8" 8 "\x7b\"a\": 1\x7d" (Json.obj (.cons "a" (.num 1) .nil))
      "Permission denied" rfl rfl rfl rfl rfl,
   error_paths_amended.2.2.1 none ⟨"/save-config", [], "\x7b\x7d"⟩ none typeErrorMsg rfl rfl⟩

/-- C3: a POST to /save-config whose body is not valid JSON is answered 500
with a JSON body whose error key carries a non-empty message, and the config
file is left unchanged. -/
theorem invalid_json_500_file_unchanged (req : Request) (file : FileState)
    (hv : String) (cl : Int) (pd : String) (hp : req.path = "/save-config")
    (hh : getHeader req.headers "Content-Length" = some hv)
    (hn : parsePyInt hv = some cl) (hrd : readDecoded req.body cl = Except.ok pd)
    (hld : loads pd = none) :
    doPOST none req file = .replied (err500 invalidJsonMsg) file ∧
      (err500 invalidJsonMsg).status = 500 ∧ invalidJsonMsg ≠ "" ∧
      loads (errorBody invalidJsonMsg) =
        some (.obj (.cons "error" (.str invalidJsonMsg) .nil)) ∧
      (doPOST none req file).fileOf = file := by
  have h := doPOST_invalid none req file hv cl pd hp hh hn hrd hld
  exact ⟨h, rfl, by decide, rfl, by rw [h]; rfl⟩

theorem invalid_json_500_file_unchanged_witness :
    doPOST none ⟨"/save-config", [("Content-Length", "8")], "not json"⟩ (some "old") =
        .replied (err500 invalidJsonMsg) (some "old") ∧
      (err500 invalidJsonMsg).status = 500 ∧ invalidJsonMsg ≠ "" ∧
      loads (errorBody invalidJsonMsg) =
        some (.obj (.cons "error" (.str invalidJsonMsg) .nil)) ∧
      (doPOST none ⟨"/save-config", [("Content-Length", "8")], "not json"⟩
        (some "old")).fileOf = some "old" :=
  invalid_json_500_file_unchanged ⟨"/save-config", [("Content-Length", "8")], "not json"⟩
    (some "old") "8" 8 "not json" rfl rfl rfl rfl rfl

/-- C4 counterexample: a request whose method is not POST does not receive a
404 from this code: a PUT (or any method without a `do_<METHOD>` handler) is
answered 501 Unsupported method by the HTTP base class, and a GET falls
through to the static file server. This refutes the claim that every request
not matching POST /save-config is answered 404. -/
theorem non_post_method_not_404_cex :
    dispatch none "PUT" ⟨"/save-config", [], ""⟩ none = .unsupported 501 ∧
      (501 : Nat) ≠ 404 ∧
      dispatch none "GET" ⟨"/other", [], ""⟩ none = .staticServe :=
  ⟨rfl, by decide, rfl⟩

/-- C4 amended: a POST to any path other than /save-config is answered 404
with an empty body and no Content-Type header, and the file state is left
untouched; requests with other methods never reach `do_POST` — GET and HEAD
go to the external static file serving, every other method is answered 501 by
the HTTP base class. -/
theorem routing_amended :
    (∀ fsFail req file, req.path ≠ "/save-config" →
      doPOST fsFail req file = .replied notFound404 file) ∧
    (notFound404.status = 404 ∧ notFound404.body = "" ∧
      notFound404.contentType = none) ∧
    (∀ fsFail req file, dispatch fsFail "POST" req file = .post (doPOST fsFail req file)) ∧
    (∀ fsFail method req file, method ≠ "POST" → method ≠ "GET" → method ≠ "HEAD" →
      dispatch fsFail method req file = .unsupported 501) ∧
    (∀ fsFail req file, dispatch fsFail "GET" req file = .staticServe ∧
      dispatch fsFail "HEAD" req file = .staticServe) := by
  refine ⟨?_, ⟨rfl, rfl, rfl⟩, ?_, ?_, ?_⟩
  · intro fsFail req file hp
    exact doPOST_notfound fsFail req file hp
  · intro fsFail req file
    rfl
  · intro fsFail method req file h1 h2 h3
    have hor : ¬ (method = "GET" ∨ method = "HEAD") := by
      intro h
      rcases h with h | h
      · exact h2 h
      · exact h3 h
    rw [dispatch, if_neg h1, if_neg hor]
  · intro fsFail req file
    exact ⟨rfl, rfl⟩

theorem routing_amended_witness :
    doPOST none ⟨"/other", [("Content-Length", "2")], "\x7b\x7d"⟩ (some "old") =
        .replied notFound404 (some "old") ∧
      dispatch none "DELETE" ⟨"/save-config", [], ""⟩ none = .unsupported 501 :=
  ⟨routing_amended.1 none ⟨"/other", [("Content-Length", "2")], "\x7b\x7d"⟩ (some "old")
      (by decide),
   routing_amended.2.2.2.1 none "DELETE" ⟨"/save-config", [], ""⟩ none
      (by decide) (by decide) (by decide)⟩

/-- C5: every successful save writes the 2-space-indented serialization of the
parsed document to the config file, fully overwriting any previous content,
independently of the prior file state; in particular two sequential saves of
`\x7b"a": 1\x7d` then `\x7b"b": 2\x7d` leave the file holding exactly the
serialization of `\x7b"b": 2\x7d`, with no merging. -/
theorem save_overwrites_no_merge :
    (∀ req file hv cl pd v, req.path = "/save-config" →
      getHeader req.headers "Content-Length" = some hv →
      parsePyInt hv = some cl → readDecoded req.body cl = Except.ok pd →
      loads pd = some v → doPOST none req file = .replied ok200 (some (dumps v))) ∧
    dumps (.obj (.cons "a" (.num 1) .nil)) = "\x7b\n  \"a\": 1\n\x7d" ∧
    (doPOST none ⟨"/save-config", [("Content-Length", "8")], "\x7b\"b\": 2\x7d"⟩
        ((doPOST none ⟨"/save-config", [("Content-Length", "8")], "\x7b\"a\": 1\x7d"⟩
          (some "old content")).fileOf)).fileOf =
      some "\x7b\n  \"b\": 2\n\x7d" := by
  refine ⟨?_, rfl, rfl⟩
  intro req file hv cl pd v hp hh hn hrd hld
  exact doPOST_success req file hv cl pd v hp hh hn hrd hld

theorem save_overwrites_no_merge_witness :
    doPOST none ⟨"/save-config", [("Content-Length", "8")], "\x7b\"b\": 2\x7d"⟩
        (some "\x7b\n  \"a\": 1\n\x7d") =
      .replied ok200 (some (dumps (Json.obj (.cons "b" (.num 2) .nil)))) :=
  save_overwrites_no_merge.1 ⟨"/save-config", [("Content-Length", "8")], "\x7b\"b\": 2\x7d"⟩
    (some "\x7b\n  \"a\": 1\n\x7d") "8" 8 "\x7b\"b\": 2\x7d"
    (Json.obj (.cons "b" (.num 2) .nil)) rfl rfl rfl rfl rfl

/-- C6: round-trip — for every JSON document `D` of the model (object, array,
string, integer number, boolean or null), serializing `D` as the handler's
file write does and parsing the result back yields exactly `D`. -/
theorem save_load_roundtrip : ∀ v : Json, loads (dumps v) = some v :=
  fun v => loads_dumps v

/-- Inversion of a successful save: a 200 outcome can only arise on the
save-config path with a header that parses, a body read that decodes, a JSON
parse that succeeds, and a file write of the parsed value's serialization. -/
theorem doPOST_ok200_inv (req : Request) (file : FileState) (d : String)
    (h : doPOST none req file = .replied ok200 (some d)) :
    req.path = "/save-config" ∧ ∃ hv cl pd v,
      getHeader req.headers "Content-Length" = some hv ∧ parsePyInt hv = some cl ∧
      readDecoded req.body cl = Except.ok pd ∧ loads pd = some v ∧ d = dumps v := by
  by_cases hp : req.path = "/save-config"
  case neg =>
    rw [doPOST_notfound none req file hp] at h
    simp [notFound404, ok200, HttpResponse.mk.injEq] at h
  case pos =>
    refine ⟨hp, ?_⟩
    cases hh : getHeader req.headers "Content-Length" with
    | none =>
      rw [doPOST_uncaught none req file typeErrorMsg hp (by rw [hh]; rfl)] at h
      simp at h
    | some hv =>
      cases hpv : parsePyInt hv with
      | none =>
        rw [doPOST_uncaught none req file (valueErrorMsg hv) hp
          (by rw [hh, pyInt, hpv])] at h
        simp at h
      | some cl =>
        cases hrd : readDecoded req.body cl with
        | error m =>
          rw [doPOST_readerr none req file hv cl m hp hh hpv hrd] at h
          simp [err500, ok200, HttpResponse.mk.injEq] at h
        | ok pd =>
          cases hl : loads pd with
          | none =>
            rw [doPOST_invalid none req file hv cl pd hp hh hpv hrd hl] at h
            simp [err500, ok200, HttpResponse.mk.injEq] at h
          | some v =>
            rw [doPOST_success req file hv cl pd v hp hh hpv hrd hl] at h
            have hd : d = dumps v := by
              simp only [Outcome.replied.injEq, Option.some.injEq] at h
              exact h.2.symm
            exact ⟨hv, cl, pd, v, rfl, hpv, hrd, hl, hd⟩

/-- C7: saving is idempotent — if a request produced a successful save with
resulting file content `d`, repeating the identical request against the new
file state produces the same 200 response and byte-identical file content. -/
theorem save_idempotent (req : Request) (file : FileState) (d : String)
    (h : doPOST none req file = .replied ok200 (some d)) :
    doPOST none req (some d) = .replied ok200 (some d) := by
  obtain ⟨hp, hv, cl, pd, v, hh, hn, hrd, hl, hd⟩ := doPOST_ok200_inv req file d h
  subst hd
  exact doPOST_success req (some (dumps v)) hv cl pd v hp hh hn hrd hl

theorem save_idempotent_witness :
    doPOST none ⟨"/save-config", [("Content-Length", "8")], "\x7b\"a\": 1\x7d"⟩
        (some (dumps (Json.obj (.cons "a" (.num 1) .nil)))) =
      .replied ok200 (some (dumps (Json.obj (.cons "a" (.num 1) .nil)))) :=
  save_idempotent ⟨"/save-config", [("Content-Length", "8")], "\x7b\"a\": 1\x7d"⟩ none
    (dumps (Json.obj (.cons "a" (.num 1) .nil))) rfl

/-- C8: the handler is stateless — the response to a request does not depend
on the file state (the only state there is), and the resulting file state is
either untouched or determined by the request alone, so no information flows
from one request to the response of another. -/
theorem handler_stateless (fsFail : Option String) (req : Request)
    (f₁ f₂ : FileState) :
    (doPOST fsFail req f₁).respOf = (doPOST fsFail req f₂).respOf ∧
      ((doPOST fsFail req f₁).fileOf = f₁ ∨
        (doPOST fsFail req f₁).fileOf = (doPOST fsFail req f₂).fileOf) := by
  by_cases hp : req.path = "/save-config"
  · cases hh : getHeader req.headers "Content-Length" with
    | none =>
      rw [doPOST_uncaught fsFail req f₁ typeErrorMsg hp (by rw [hh]; rfl),
        doPOST_uncaught fsFail req f₂ typeErrorMsg hp (by rw [hh]; rfl)]
      exact ⟨rfl, Or.inl rfl⟩
    | some hv =>
      cases hpv : parsePyInt hv with
      | none =>
        rw [doPOST_uncaught fsFail req f₁ (valueErrorMsg hv) hp (by rw [hh, pyInt, hpv]),
          doPOST_uncaught fsFail req f₂ (valueErrorMsg hv) hp (by rw [hh, pyInt, hpv])]
        exact ⟨rfl, Or.inl rfl⟩
      | some cl =>
        cases hrd : readDecoded req.body cl with
        | error m =>
          rw [doPOST_readerr fsFail req f₁ hv cl m hp hh hpv hrd,
            doPOST_readerr fsFail req f₂ hv cl m hp hh hpv hrd]
          exact ⟨rfl, Or.inl rfl⟩
        | ok pd =>
          cases hl : loads pd with
          | none =>
            rw [doPOST_invalid fsFail req f₁ hv cl pd hp hh hpv hrd hl,
              doPOST_invalid fsFail req f₂ hv cl pd hp hh hpv hrd hl]
            exact ⟨rfl, Or.inl rfl⟩
          | some v =>
            cases fsFail with
            | some m =>
              rw [doPOST_fsfail req f₁ hv cl pd v m hp hh hpv hrd hl,
                doPOST_fsfail req f₂ hv cl pd v m hp hh hpv hrd hl]
              exact ⟨rfl, Or.inl rfl⟩
            | none =>
              rw [doPOST_success req f₁ hv cl pd v hp hh hpv hrd hl,
                doPOST_success req f₂ hv cl pd v hp hh hpv hrd hl]
              exact ⟨rfl, Or.inr rfl⟩
  · rw [doPOST_notfound fsFail req f₁ hp, doPOST_notfound fsFail req f₂ hp]
    exact ⟨rfl, Or.inl rfl⟩

/-- C9: whenever a handler invocation changes the config file, the new content
is the 2-space-indented serialization of a value parsed from the request body
beforehand, and that content parses back as valid JSON; raw request bytes are
never written. -/
theorem written_file_is_valid_json (fsFail : Option String) (req : Request)
    (file : FileState) :
    (doPOST fsFail req file).fileOf = file ∨
      ∃ hv cl pd v, getHeader req.headers "Content-Length" = some hv ∧
        parsePyInt hv = some cl ∧ readDecoded req.body cl = Except.ok pd ∧
        loads pd = some v ∧ (doPOST fsFail req file).fileOf = some (dumps v) ∧
        loads (dumps v) = some v := by
  by_cases hp : req.path = "/save-config"
  · cases hh : getHeader req.headers "Content-Length" with
    | none =>
      left
      rw [doPOST_uncaught fsFail req file typeErrorMsg hp (by rw [hh]; rfl)]
      rfl
    | some hv =>
      cases hpv : parsePyInt hv with
      | none =>
        left
        rw [doPOST_uncaught fsFail req file (valueErrorMsg hv) hp
          (by rw [hh, pyInt, hpv])]
        rfl
      | some cl =>
        cases hrd : readDecoded req.body cl with
        | error m =>
          left
          rw [doPOST_readerr fsFail req file hv cl m hp hh hpv hrd]
          rfl
        | ok pd =>
          cases hl : loads pd with
          | none =>
            left
            rw [doPOST_invalid fsFail req file hv cl pd hp hh hpv hrd hl]
            rfl
          | some v =>
            cases fsFail with
            | some m =>
              left
              rw [doPOST_fsfail req file hv cl pd v m hp hh hpv hrd hl]
              rfl
            | none =>
              right
              refine ⟨hv, cl, pd, v, rfl, hpv, hrd, hl, ?_, loads_dumps v⟩
              rw [doPOST_success req file hv cl pd v hp hh hpv hrd hl]
              rfl
  · left
    rw [doPOST_notfound fsFail req file hp]
    rfl

/-- C10: a POST to /save-config with Content-Length 0 reads an empty body,
whose JSON parse fails, so the handler answers 500 with a non-empty error
message and the config file is neither opened for writing nor changed. -/
theorem empty_body_rejected (req : Request) (file : FileState) (hv : String)
    (hp : req.path = "/save-config")
    (hh : getHeader req.headers "Content-Length" = some hv)
    (hn : parsePyInt hv = some 0) :
    doPOST none req file = .replied (err500 invalidJsonMsg) file ∧
      invalidJsonMsg ≠ "" ∧ (doPOST none req file).fileOf = file := by
  have h := doPOST_invalid none req file hv 0 "" hp hh hn (readDecoded_zero req.body) rfl
  exact ⟨h, by decide, by rw [h]; rfl⟩

theorem empty_body_rejected_witness :
    doPOST none ⟨"/save-config", [("Content-Length", "0")], ""⟩ (some "keep") =
        .replied (err500 invalidJsonMsg) (some "keep") ∧
      invalidJsonMsg ≠ "" ∧
      (doPOST none ⟨"/save-config", [("Content-Length", "0")], ""⟩
        (some "keep")).fileOf = some "keep" :=
  empty_body_rejected ⟨"/save-config", [("Content-Length", "0")], ""⟩ (some "keep")
    "0" rfl rfl rfl
end ConfigServer
